import Mathlib

/-!
Verification development for the mautrix Go repository.

Part I embeds, from the repository sources, the forward-backfill
truncation logic of `Portal.sendBackfill` (bridgev2/portalbackfill.go)
and the encryption branch of `HiClient.Send` (hicli).

Part II models the SAS device-verification protocol.  The protocol
implementation itself is not among the surveyed source files (only its
test, `TestVerification_SAS`, is), so the definitions there are
modelled from the specification document, as their doc comments state.
-/

namespace Backfill

/-- A remote message as seen by `sendBackfill`; only the timestamp is
relevant to the truncation logic.  Timestamps are Unix milliseconds;
`time.Time.Before` is strict less-than. -/
structure BFMessage where
  timestamp : Int
  msgId : Nat
deriving Repr, DecidableEq

/-- The cutoff loop of `Portal.sendBackfill`:
`for i, msg := range messages { if msg.Timestamp.Before(lastMessage.Timestamp) { cutoff = i } }`.
`i` is the index of the current element, `acc` the current value of the
`cutoff` variable (initially 0). -/
def cutoffAux (lastTs : Int) : Nat → Nat → List BFMessage → Nat
  | _, acc, [] => acc
  | i, acc, m :: rest => cutoffAux lastTs (i + 1) (if m.timestamp < lastTs then i else acc) rest

/-- The final value of the `cutoff` variable in `Portal.sendBackfill`. -/
def computeCutoff (messages : List BFMessage) (lastTs : Int) : Nat :=
  cutoffAux lastTs 0 0 messages

/-- The truncation applied by `Portal.sendBackfill` when `forceForward`
is set: `if cutoff != 0 { messages = messages[cutoff:] }`. -/
def truncateForward (messages : List BFMessage) (lastTs : Int) : List BFMessage :=
  let cutoff := computeCutoff messages lastTs
  if cutoff ≠ 0 then messages.drop cutoff else messages

/-- Index of the last message strictly older than the anchor, if any:
a specification-side description of what the cutoff loop computes. -/
def lastOlderIdx (lastTs : Int) : List BFMessage → Option Nat
  | [] => none
  | m :: rest =>
    match lastOlderIdx lastTs rest with
    | some j => some (j + 1)
    | none => if m.timestamp < lastTs then some 0 else none

end Backfill

namespace HiCli

/-- Event type constants from the mautrix `event` package. -/
def EventReaction : String := "m.reaction"

def EventEncrypted : String := "m.room.encrypted"

/-- Event content.  Encryption (the `Crypto.EncryptMegolmEvent`
collaborator reached through `HiClient.Encrypt`) is modelled as an
injective wrapping of the plaintext content together with the megolm
session ID. -/
inductive Content where
  | plain (body : String)
  | encrypted (inner : Content) (sessionId : String)
deriving Repr, DecidableEq

/-- Room metadata as used by `HiClient.Send`: whether the room has an
`m.room.encryption` state event, and the outbound megolm session the
encryption collaborator would use. -/
structure Room where
  encryptionEvent : Option String
  sessionId : String
deriving Repr, DecidableEq

/-- Modelled collaborator: `HiClient.Encrypt`, returning the encrypted
content and its megolm session ID. -/
def encryptMegolm (room : Room) (content : Content) : Content × String :=
  (Content.encrypted content room.sessionId, room.sessionId)

/-- The fields of `database.Event` that `HiClient.Send` fills in and
that the claims are about. -/
structure DBEvent where
  evtType : String
  content : Content
  decrypted : Option Content
  decryptedType : String
  megolmSessionID : String
deriving Repr, DecidableEq

/-- `HiClient.Send`, restricted to the construction of the database
event: the encryption branch runs exactly when the room metadata has a
non-nil `EncryptionEvent` and the event type is not `m.reaction`; it
records the plaintext in `Decrypted`/`DecryptedType`, replaces the
content with the encrypted payload and rewrites the type to
`m.room.encrypted`.  Otherwise the original type and content are used
and the decrypted fields keep their zero values. -/
def send (room : Room) (evtType : String) (content : Content) : DBEvent :=
  if room.encryptionEvent.isSome ∧ evtType ≠ EventReaction then
    let enc := encryptMegolm room content
    { evtType := EventEncrypted
      content := enc.1
      decrypted := some content
      decryptedType := evtType
      megolmSessionID := enc.2 }
  else
    { evtType := evtType
      content := content
      decrypted := none
      decryptedType := ""
      megolmSessionID := "" }

end HiCli

namespace Verif

/-- Modelled from the spec: the derived byte stream is a list of bytes
(naturals below 256), consumed bit by bit, most significant bit of each
byte first. -/
def byteBits (b : Nat) : List Bool :=
  (List.range 8).map (fun i => b / 2 ^ (7 - i) % 2 == 1)

/-- The bit stream of a byte stream. -/
def bitStream (bytes : List Nat) : List Bool :=
  bytes.flatMap byteBits

/-- Big-endian value of a bit list. -/
def bitsToNat : List Bool → Nat
  | [] => 0
  | b :: rest => (if b then 1 else 0) * 2 ^ rest.length + bitsToNat rest

/-- The unsigned integer formed by `len` bits of the stream starting at
bit `start`. -/
def takeChunk (bits : List Bool) (start len : Nat) : Nat :=
  bitsToNat ((bits.drop start).take len)

/-- Modelled from the spec: the decimal SAS encoding consumes the
derived byte stream as a sequence of 13-bit unsigned integers, adds
1000 to each, and produces exactly 3 numbers in a fixed order. -/
def decimalSAS (bytes : List Nat) : List Nat :=
  let bits := bitStream bytes
  [takeChunk bits 0 13 + 1000, takeChunk bits 13 13 + 1000, takeChunk bits 26 13 + 1000]

/-- Modelled from the spec: the fixed ordered table of 64 pairs of an
emoji and its description. -/
def emojiTable : List (String × String) :=
  [("🐶", "Dog"), ("🐱", "Cat"), ("🦁", "Lion"), ("🐎", "Horse"),
   ("🦄", "Unicorn"), ("🐷", "Pig"), ("🐘", "Elephant"), ("🐰", "Rabbit"),
   ("🐼", "Panda"), ("🐓", "Rooster"), ("🐧", "Penguin"), ("🐢", "Turtle"),
   ("🐟", "Fish"), ("🐙", "Octopus"), ("🦋", "Butterfly"), ("🌷", "Flower"),
   ("🌳", "Tree"), ("🌵", "Cactus"), ("🍄", "Mushroom"), ("🌏", "Globe"),
   ("🌙", "Moon"), ("☁", "Cloud"), ("🔥", "Fire"), ("🍌", "Banana"),
   ("🍎", "Apple"), ("🍓", "Strawberry"), ("🌽", "Corn"), ("🍕", "Pizza"),
   ("🎂", "Cake"), ("❤", "Heart"), ("😀", "Smiley"), ("🤖", "Robot"),
   ("🎩", "Hat"), ("👓", "Glasses"), ("🔧", "Spanner"), ("🎅", "Santa"),
   ("👍", "Thumbs Up"), ("☂", "Umbrella"), ("⌛", "Hourglass"), ("⏰", "Clock"),
   ("🎁", "Gift"), ("💡", "Light Bulb"), ("📕", "Book"), ("✏", "Pencil"),
   ("📎", "Paperclip"), ("✂", "Scissors"), ("🔒", "Lock"), ("🔑", "Key"),
   ("🔨", "Hammer"), ("☎", "Telephone"), ("🏁", "Flag"), ("🚂", "Train"),
   ("🚲", "Bicycle"), ("✈", "Aeroplane"), ("🚀", "Rocket"), ("🏆", "Trophy"),
   ("⚽", "Ball"), ("🎸", "Guitar"), ("🎺", "Trumpet"), ("🔔", "Bell"),
   ("⚓", "Anchor"), ("🎧", "Headphones"), ("📁", "Folder"), ("📌", "Pin")]

/-- Modelled from the spec: the emoji SAS encoding consumes 6 bits at a
time from the byte stream; each 6-bit value indexes the fixed table.
Exactly 7 indices are produced. -/
def emojiIndices (bytes : List Nat) : List Nat :=
  let bits := bitStream bytes
  (List.range 7).map (fun i => takeChunk bits (6 * i) 6)

/-- The 7 emoji symbols displayed for a derived byte stream. -/
def emojiSAS (bytes : List Nat) : List (String × String) :=
  (emojiIndices bytes).map (fun n => emojiTable.getD n ("", ""))

/-- Modelled from the spec: X25519 is modelled abstractly as
exponentiation over the naturals with a fixed base point, which gives
the commutativity the spec relies on for role-independent derivation. -/
def basePoint : Nat := 5

/-- Modelled from the spec: public key of an ephemeral private key. -/
def publicKey (priv : Nat) : Nat := basePoint ^ priv

/-- Modelled from the spec: Diffie–Hellman agreement (X25519 scalar
multiplication of the peer public key by the local private key). -/
def agree (priv theirPub : Nat) : Nat := theirPub ^ priv

/-- A deterministic injective string code, used to feed identifiers
into the modelled derivation functions. -/
def strCode (s : String) : Nat :=
  s.toList.foldl (fun acc c => acc * 1114112 + c.toNat + 1) 1

/-- Modelled from the spec: the negotiated parameter set carried by the
accept event. -/
structure AcceptParams where
  hashAlg : String
  keyAgreement : String
  macMethod : String
  sasMethods : List String
deriving Repr, DecidableEq

/-- Canonical numeric encoding of an accept parameter set. -/
def paramsCode (p : AcceptParams) : Nat :=
  ((strCode p.hashAlg * 1000003 + strCode p.keyAgreement) * 1000003 +
    strCode p.macMethod) * 1000003 +
    p.sasMethods.foldl (fun acc s => acc * 1000003 + strCode s) 1

/-- Modelled from the spec: the commitment is a deterministic hash over
the canonical encoding of the accept parameters concatenated with the
committing side ephemeral public key; the hash is modelled as an
injective pairing. -/
def commitment (params : AcceptParams) (ephemeralPub : Nat) : Nat :=
  Nat.pair (paramsCode params) ephemeralPub

/-- Modelled from the spec: device IDs and transaction IDs are opaque
identifiers; the model represents them as opaque natural-number codes,
with the order on codes standing in for the lexicographic order on the
underlying strings. -/
structure SASInfo where
  device1 : Nat
  device2 : Nat
  pub1 : Nat
  pub2 : Nat
  txnId : Nat
deriving Repr, DecidableEq

/-- Build the derivation info from the local view, normalising the
order by device ID; the spec requires both device IDs, both ephemeral
public keys and the transaction ID, each pair ordered identically on
both sides. -/
def mkInfo (ourDevice theirDevice : Nat) (ourPub theirPub : Nat) (txnId : Nat) : SASInfo :=
  if ourDevice ≤ theirDevice then
    ⟨ourDevice, theirDevice, ourPub, theirPub, txnId⟩
  else
    ⟨theirDevice, ourDevice, theirPub, ourPub, txnId⟩

/-- Numeric encoding of the derivation info. -/
def infoCode (i : SASInfo) : Nat :=
  (((i.device1 * 1000003 + i.device2) * 1000003 + i.pub1) * 1000003 +
    i.pub2) * 1000003 + i.txnId

/-- A deterministic mixing step, standing in for a hash compression
function in the modelled HKDF. -/
def mix (x : Nat) : Nat := (x * 1103515245 + 12345) % 2147483648

/-- Modelled from the spec: HKDF-style expansion of the shared secret
and an info value into `n` bytes. -/
def deriveBytes (secret info n : Nat) : List Nat :=
  (List.range n).map (fun i => mix (mix (secret % 2147483648) + info + i) % 256)

/-- Modelled from the spec: derivation of the SAS byte stream (context
tag 0, disjoint from the MAC key context). -/
def deriveSASBytes (secret : Nat) (info : SASInfo) : List Nat :=
  deriveBytes secret (2 * infoCode info) 6

/-- Modelled from the spec: derivation of the MAC key (context tag 1,
disjoint from the SAS byte context). -/
def deriveMACKey (secret : Nat) (info : SASInfo) : Nat :=
  mix (mix (secret % 2147483648) + 2 * infoCode info + 1)

/-- Modelled from the spec: keyed MAC, modelled as an injective pairing
of key and data. -/
def macOf (macKey data : Nat) : Nat := Nat.pair macKey data

end Verif

namespace Verif

/-- Modelled from the spec: the role of a side in one transaction. -/
inductive Role where
  | initiator
  | responder
deriving Repr, DecidableEq

/-- Modelled from the spec: machine-readable cancellation codes. -/
inductive CancelCode where
  | unknownMethod
  | unexpectedMessage
  | mismatchedCommitment
  | mismatchedSAS
  | mismatchedKeys
  | timeout
  | userCancel
deriving Repr, DecidableEq

/-- Modelled from the spec: the per-side transaction states. -/
inductive TState where
  | requested
  | ready
  | started
  | keySent
  | sasShown
  | macSent
  | done
  | cancelled (code : CancelCode)
deriving Repr, DecidableEq

/-- Modelled from the spec: content of the start event. -/
structure StartContent where
  fromDevice : Nat
  hashes : List String
  keyAgreementProtocols : List String
  messageAuthenticationCodes : List String
  shortAuthenticationString : List String
deriving Repr, DecidableEq

/-- Modelled from the spec: the protocol events exchanged between
peers (section 6 of the spec). -/
inductive EventContent where
  | request (fromDevice : Nat) (methods : List String)
  | ready (fromDevice : Nat) (methods : List String)
  | start (sc : StartContent)
  | accept (params : AcceptParams) (commitmentValue : Nat)
  | key (pub : Nat)
  | mac (macs : List (Nat × Nat)) (keysMac : Nat)
  | cancel (code : CancelCode)
deriving Repr, DecidableEq

/-- A device-to-device message: an event tagged with its transaction
ID. -/
structure Message where
  txnId : Nat
  content : EventContent
deriving Repr, DecidableEq

/-- Modelled from the spec: the per-side transaction record. -/
structure Txn where
  txnId : Nat
  otherDevice : Nat
  role : Option Role
  state : TState
  ourPriv : Option Nat
  theirPub : Option Nat
  sentParams : Option AcceptParams
  receivedParams : Option AcceptParams
  receivedCommitment : Option Nat
  sasBytes : Option (List Nat)
  macKey : Option Nat
  confirmedLocally : Bool
  macReceived : Bool
deriving Repr, DecidableEq

/-- A fresh transaction in the Requested state. -/
def newTxn (txnId otherDevice : Nat) : Txn :=
  ⟨txnId, otherDevice, none, .requested, none, none, none, none, none, none, none, false, false⟩

/-- Static per-side configuration: device ID, the ephemeral private
key the side will generate when first needed, and whether it generated
cross-signing keys (with its master key ID) during the flow. -/
structure SideConfig where
  deviceId : Nat
  privKey : Nat
  crossSigning : Bool
  masterKey : Nat
deriving Repr, DecidableEq

/-- Outputs of a transition: an outbound event, a callback invocation,
or a trust-store update. -/
inductive Output where
  | send (m : Message)
  | showSAS (decimals : List Nat) (emojis : List (String × String))
  | doneCb
  | cancelledCb (code : CancelCode)
  | markVerified (keyIds : List Nat)
deriving Repr, DecidableEq

/-- Default capabilities (spec section 8): SHA-256, Curve25519-HKDF,
both HKDF-HMAC MAC variants, decimal and emoji display. -/
def supportedHashes : List String := ["sha256"]

def supportedKeyAgreements : List String := ["curve25519-hkdf-sha256"]

def preferredMAC : String := "hkdf-hmac-sha256.v2"

def supportedMACs : List String := ["hkdf-hmac-sha256", "hkdf-hmac-sha256.v2"]

def supportedSAS : List String := ["decimal", "emoji"]

/-- The start event content advertising the default capabilities. -/
def defaultStartContent (fromDevice : Nat) : StartContent :=
  ⟨fromDevice, supportedHashes, supportedKeyAgreements, supportedMACs, supportedSAS⟩

/-- Modelled from the spec: the responder intersects the advertised
capabilities with its own and picks one of each; an empty overlap in
any category is a failure. -/
def chooseParams (sc : StartContent) : Option AcceptParams :=
  let hs := sc.hashes.filter (fun h => h ∈ supportedHashes)
  let kas := sc.keyAgreementProtocols.filter (fun k => k ∈ supportedKeyAgreements)
  let ms := sc.messageAuthenticationCodes.filter (fun m => m ∈ supportedMACs)
  let sas := sc.shortAuthenticationString.filter (fun s => s ∈ supportedSAS)
  match hs, kas, sas with
  | h :: _, ka :: _, _ :: _ =>
    if preferredMAC ∈ ms then some ⟨h, ka, preferredMAC, sas⟩
    else
      match ms with
      | m :: _ => some ⟨h, ka, m, sas⟩
      | [] => none
  | _, _, _ => none

/-- Signing key ID of a device or master key (the `ed25519:<name>` key
ID), modelled as an injective tagging of the opaque name code. -/
def keyIdOf (name : Nat) : Nat := Nat.pair 25519 name

/-- Insertion into a sorted list of key-ID codes. -/
def insertSorted (s : Nat) : List Nat → List Nat
  | [] => [s]
  | x :: rest => if s ≤ x then s :: x :: rest else x :: insertSorted s rest

/-- Sort a list of key-ID codes (the canonical order of the spec). -/
def sortKeyIds (l : List Nat) : List Nat := l.foldr insertSorted []

/-- Modelled from the spec: the canonical (sorted) list of key IDs
that the keys MAC is computed over, encoded numerically for the
modelled MAC. -/
def canonicalKeyCode (kids : List Nat) : Nat :=
  (sortKeyIds kids).foldl (fun acc k => acc * 1000003 + k + 1) 1

/-- The key IDs a side attests in its mac event: always its own device
signing key, plus its master cross-signing key if it generated one. -/
def macKeyIds (cfg : SideConfig) : List Nat :=
  keyIdOf cfg.deviceId :: (if cfg.crossSigning then [keyIdOf cfg.masterKey] else [])

/-- Modelled from the spec: the content of the mac event sent on local
confirmation — a MAC per attested key, keyed by the derived MAC key,
plus a MAC over the canonical sorted key-ID list. -/
def makeMacContent (cfg : SideConfig) (mk : Nat) : List (Nat × Nat) × Nat :=
  let kids := macKeyIds cfg
  (kids.map (fun kid => (kid, macOf mk kid)),
   macOf mk (canonicalKeyCode kids))

/-- Modelled from the spec: verification of a received mac event with
the locally derived MAC key. -/
def checkMacs (mk : Nat) (macs : List (Nat × Nat)) (keysMac : Nat) : Bool :=
  macs.all (fun p => p.2 == macOf mk p.1) &&
    (keysMac == macOf mk (canonicalKeyCode (macs.map Prod.fst)))

/-- Terminal states accept no further transitions. -/
def isTerminal : TState → Bool
  | .done => true
  | .cancelled _ => true
  | _ => false

/-- Local cancellation: move to Cancelled, notify the peer and fire
the cancellation callback. -/
def cancelTxn (t : Txn) (code : CancelCode) : Txn × List Output :=
  ({ t with state := .cancelled code },
   [.send ⟨t.txnId, .cancel code⟩, .cancelledCb code])

end Verif

namespace Verif

/-- Modelled from the spec (section 4.3): the single state-transition
entry point of a non-terminal transaction, for network-driven events.
Each branch follows the numbered transition of the spec; an event that
does not fit the current state is a protocol violation and cancels the
transaction with `unexpectedMessage`. -/
def txnStepActive (cfg : SideConfig) (t : Txn) (ev : EventContent) : Txn × List Output :=
  match ev with
  | .cancel code => ({ t with state := .cancelled code }, [.cancelledCb code])
  | .request _ _ => cancelTxn t .unexpectedMessage
  | .ready fromDevice _ =>
    match t.state with
    | .requested => ({ t with state := .ready, otherDevice := fromDevice }, [])
    | _ => cancelTxn t .unexpectedMessage
  | .start sc =>
    match t.state with
    | .ready =>
      match chooseParams sc with
      | none => cancelTxn t .unknownMethod
      | some params =>
        let pub := publicKey cfg.privKey
        ({ t with role := some .responder, state := .started,
                  otherDevice := sc.fromDevice,
                  ourPriv := some cfg.privKey, sentParams := some params },
         [.send ⟨t.txnId, .accept params (commitment params pub)⟩])
    | _ => cancelTxn t .unexpectedMessage
  | .accept params commVal =>
    match t.state, t.role with
    | .started, some .initiator =>
      ({ t with state := .keySent, ourPriv := some cfg.privKey,
                receivedParams := some params, receivedCommitment := some commVal },
       [.send ⟨t.txnId, .key (publicKey cfg.privKey)⟩])
    | _, _ => cancelTxn t .unexpectedMessage
  | .key theirPub =>
    match t.state, t.role with
    | .started, some .responder =>
      match t.ourPriv with
      | some priv =>
        let shared := agree priv theirPub
        let info := mkInfo cfg.deviceId t.otherDevice (publicKey priv) theirPub t.txnId
        let sas := deriveSASBytes shared info
        let mk := deriveMACKey shared info
        ({ t with state := .sasShown, theirPub := some theirPub,
                  sasBytes := some sas, macKey := some mk },
         [.send ⟨t.txnId, .key (publicKey priv)⟩,
          .showSAS (decimalSAS sas) (emojiSAS sas)])
      | none => cancelTxn t .unexpectedMessage
    | .keySent, some .initiator =>
      match t.receivedParams, t.receivedCommitment, t.ourPriv with
      | some params, some commVal, some priv =>
        if commitment params theirPub == commVal then
          let shared := agree priv theirPub
          let info := mkInfo cfg.deviceId t.otherDevice (publicKey priv) theirPub t.txnId
          let sas := deriveSASBytes shared info
          let mk := deriveMACKey shared info
          ({ t with state := .sasShown, theirPub := some theirPub,
                    sasBytes := some sas, macKey := some mk },
           [.showSAS (decimalSAS sas) (emojiSAS sas)])
        else cancelTxn t .mismatchedCommitment
      | _, _, _ => cancelTxn t .unexpectedMessage
    | _, _ => cancelTxn t .unexpectedMessage
  | .mac macs keysMac =>
    match t.state with
    | .sasShown | .macSent =>
      match t.macKey with
      | some mk =>
        if checkMacs mk macs keysMac then
          let verified : List Output := [.markVerified (macs.map Prod.fst)]
          if t.confirmedLocally then
            ({ t with macReceived := true, state := .done }, verified ++ [.doneCb])
          else ({ t with macReceived := true }, verified)
        else cancelTxn t .mismatchedKeys
      | none => cancelTxn t .unexpectedMessage
    | _ => cancelTxn t .unexpectedMessage

/-- The transaction entry point: terminal transactions no-op on every
event. -/
def txnStep (cfg : SideConfig) (t : Txn) (ev : EventContent) : Txn × List Output :=
  if isTerminal t.state then (t, []) else txnStepActive cfg t ev

/-- Modelled from the spec: the responder-side acceptance of the
request (pre-SAS handshake), moving Requested to Ready and answering
with the ready event. -/
def acceptVerificationTxn (cfg : SideConfig) (t : Txn) : Txn × List Output :=
  match t.state with
  | .requested =>
    ({ t with state := .ready },
     [.send ⟨t.txnId, .ready cfg.deviceId ["m.sas.v1"]⟩])
  | _ => (t, [])

/-- Modelled from the spec: `start_sas`, callable by either side once
Ready; the caller becomes the initiator and sends the start event. -/
def startSASTxn (cfg : SideConfig) (t : Txn) : Txn × List Output :=
  match t.state with
  | .ready =>
    ({ t with role := some .initiator, state := .started },
     [.send ⟨t.txnId, .start (defaultStartContent cfg.deviceId)⟩])
  | _ => (t, [])

/-- Modelled from the spec: `confirm_sas` — the local user attests the
displayed codes matched; the side computes and sends its mac event,
sets `confirmedLocally`, and completes if the peer mac was already
verified. -/
def confirmSASTxn (cfg : SideConfig) (t : Txn) : Txn × List Output :=
  match t.state, t.macKey with
  | .sasShown, some mk =>
    let mc := makeMacContent cfg mk
    if t.macReceived then
      ({ t with confirmedLocally := true, state := .done },
       [.send ⟨t.txnId, .mac mc.1 mc.2⟩, .doneCb])
    else
      ({ t with confirmedLocally := true, state := .macSent },
       [.send ⟨t.txnId, .mac mc.1 mc.2⟩])
  | _, _ => (t, [])

/-- A log entry; `lowSeverity` is true for debug-level logging. -/
structure LogEntry where
  lowSeverity : Bool
  message : String
deriving Repr, DecidableEq

/-- Modelled from the spec: the Coordinator owns the set of active
transactions keyed by transaction ID. -/
structure Coordinator where
  config : SideConfig
  txns : List (Nat × Txn)
deriving Repr, DecidableEq

/-- Look up a transaction by ID. -/
def lookupTxn (c : Coordinator) (txnId : Nat) : Option Txn :=
  (c.txns.find? (fun p => p.1 == txnId)).map Prod.snd

/-- Replace the stored transaction with the given ID. -/
def setTxn (c : Coordinator) (txnId : Nat) (t : Txn) : Coordinator :=
  { c with txns := c.txns.map (fun p => if p.1 == txnId then (p.1, t) else p) }

/-- Modelled from the spec: `dispatch(incoming_event)` routes by
transaction ID to the matching transaction; an event for an unknown
transaction ID is ignored — not an error, which the model renders by
`dispatch` being total and returning the coordinator unchanged — and
logged at low severity. -/
def dispatch (c : Coordinator) (m : Message) : Coordinator × List Output × List LogEntry :=
  match lookupTxn c m.txnId with
  | none => (c, [], [⟨true, "ignoring event for unknown transaction"⟩])
  | some t =>
    let r := txnStep c.config t m.content
    (setTxn c m.txnId r.1, r.2, [])

/-- Modelled from the spec (section 2): on an incoming request the
Coordinator creates a transaction in the Requested state. -/
def handleRequest (c : Coordinator) (txnId fromDevice : Nat) : Coordinator :=
  match lookupTxn c txnId with
  | some _ => c
  | none => { c with txns := c.txns ++ [(txnId, newTxn txnId fromDevice)] }

end Verif

namespace Verif

/-- The callback collaborator of one side, recording what was shown
and the terminal outcome (mirrors the test callbacks). -/
structure CallbackLog where
  decimalsShown : Option (List Nat)
  emojisShown : Option (List (String × String))
  doneFired : Bool
  cancelledWith : Option CancelCode
  verifiedKeys : List Nat
deriving Repr, DecidableEq

def emptyCallbackLog : CallbackLog := ⟨none, none, false, none, []⟩

/-- One side of the in-memory transport harness: its coordinator, its
device inbox and its callback log. -/
structure Side where
  coord : Coordinator
  inbox : List Message
  cbs : CallbackLog
deriving Repr, DecidableEq

/-- The two-sided world: side A is the sending device, side B the
receiving device of the test harness. -/
structure World where
  sideA : Side
  sideB : Side
deriving Repr, DecidableEq

def getSide (w : World) (forA : Bool) : Side :=
  if forA then w.sideA else w.sideB

/-- Install the updated side and the updated peer inbox. -/
def setSides (w : World) (forA : Bool) (s : Side) (peerInbox : List Message) : World :=
  if forA then ⟨s, { w.sideB with inbox := peerInbox }⟩
  else ⟨{ w.sideA with inbox := peerInbox }, s⟩

/-- Install one updated side, leaving the peer untouched. -/
def setSideOnly (w : World) (forA : Bool) (s : Side) : World :=
  if forA then ⟨s, w.sideB⟩ else ⟨w.sideA, s⟩

/-- Apply one transition output: sends go to the peer inbox,
callbacks into the local log. -/
def applyOutput (s : Side) (peerInbox : List Message) (o : Output) : Side × List Message :=
  match o with
  | .send m => (s, peerInbox ++ [m])
  | .showSAS d e =>
    ({ s with cbs := { s.cbs with decimalsShown := some d, emojisShown := some e } }, peerInbox)
  | .doneCb => ({ s with cbs := { s.cbs with doneFired := true } }, peerInbox)
  | .cancelledCb code =>
    ({ s with cbs := { s.cbs with cancelledWith := some code } }, peerInbox)
  | .markVerified kids =>
    ({ s with cbs := { s.cbs with verifiedKeys := s.cbs.verifiedKeys ++ kids } }, peerInbox)

def applyOutputs (s : Side) (peerInbox : List Message) : List Output → Side × List Message
  | [] => (s, peerInbox)
  | o :: rest =>
    let r := applyOutput s peerInbox o
    applyOutputs r.1 r.2 rest

/-- The single transaction ID used by the harness runs. -/
def theTxnId : Nat := 1

/-- The driver actions of the test scenario. -/
inductive Action where
  | startVerification
  | acceptVerification
  | startSAS (byA : Bool)
  | confirmSAS (byA : Bool)
  | deliver (toA : Bool)
deriving Repr, DecidableEq

/-- Run a user-facing coordinator operation on the harness
transaction of one side and route its outputs. -/
def runUser (w : World) (byA : Bool) (f : SideConfig → Txn → Txn × List Output) : World :=
  let s := getSide w byA
  let peer := getSide w (!byA)
  match lookupTxn s.coord theTxnId with
  | none => w
  | some t =>
    let r := f s.coord.config t
    let s2 := { s with coord := setTxn s.coord theTxnId r.1 }
    let ap := applyOutputs s2 peer.inbox r.2
    setSides w byA ap.1 ap.2

/-- One driver step: a user action on a side, or delivery of the next
inbox event to a side (the `dispatchToDevice` of the test). -/
def stepAction (w : World) (a : Action) : World :=
  match a with
  | .startVerification =>
    let s := w.sideA
    let s2 := { s with coord :=
      { s.coord with txns := s.coord.txns ++ [(theTxnId, newTxn theTxnId 0)] } }
    ⟨s2, { w.sideB with inbox :=
      w.sideB.inbox ++ [⟨theTxnId, .request s.coord.config.deviceId ["m.sas.v1"]⟩] }⟩
  | .acceptVerification => runUser w false acceptVerificationTxn
  | .startSAS byA => runUser w byA startSASTxn
  | .confirmSAS byA => runUser w byA confirmSASTxn
  | .deliver toA =>
    let s := getSide w toA
    match s.inbox with
    | [] => w
    | m :: rest =>
      let s1 := { s with inbox := rest }
      match m.content with
      | .request fromDevice _ =>
        setSideOnly w toA { s1 with coord := handleRequest s1.coord m.txnId fromDevice }
      | _ =>
        let r := dispatch s1.coord m
        let s2 := { s1 with coord := r.1 }
        let ap := applyOutputs s2 (getSide w (!toA)).inbox r.2.1
        setSides w toA ap.1 ap.2

def runActions (w : World) (as : List Action) : World := as.foldl stepAction w

def mkSide (cfg : SideConfig) : Side := ⟨⟨cfg, []⟩, [], emptyCallbackLog⟩

/-- The initial world of the test scenario: two devices of the same
user; exactly one of them generated cross-signing keys. -/
def initialWorld (csA : Bool) (privA privB : Nat) : World :=
  ⟨mkSide ⟨2, privA, csA, 12⟩,
   mkSide ⟨1, privB, !csA, 11⟩⟩

/-- The driver script of `TestVerification_SAS` up to (and including)
both `ConfirmSAS` calls, i.e. up to the second mac event being sent. -/
def scriptPreDrain (startA confirmA : Bool) : List Action :=
  [.startVerification, .deliver false, .acceptVerification, .deliver true,
   .startSAS startA, .deliver (!startA), .deliver startA, .deliver (!startA), .deliver startA,
   .confirmSAS confirmA, .confirmSAS (!confirmA)]

/-- The four trailing `dispatchToDevice` calls of the test: two
dispatch passes per side. -/
def drainActions : List Action :=
  [.deliver true, .deliver false, .deliver true, .deliver false]

def fullScript (startA confirmA : Bool) : List Action :=
  scriptPreDrain startA confirmA ++ drainActions

/-- A full run of the scenario, parameterised by which side starts
SAS, which side confirms first, which side generated cross-signing
keys, and the two ephemeral private keys. -/
def runSAS (startA confirmA csA : Bool) (privA privB : Nat) : World :=
  runActions (initialWorld csA privA privB) (fullScript startA confirmA)

/-- The state of the harness transaction on one side. -/
def txnStateOf (w : World) (forA : Bool) : Option TState :=
  (lookupTxn (getSide w forA).coord theTxnId).map Txn.state

end Verif

namespace Verif

/-- The world after the test script up to and including both
`ConfirmSAS` calls: the second mac event has been sent and both mac
events are in flight. -/
def preDrainWorld (sa ca cs : Bool) : World :=
  runActions (initialWorld cs 3 4) (scriptPreDrain sa ca)

/-- The pre-drain world after the four trailing dispatch calls (two
dispatch passes per side). -/
def drainedWorld (sa ca cs : Bool) : World :=
  runActions (preDrainWorld sa ca cs) drainActions

end Verif

namespace Backfill

theorem cutoffAux_eq (lastTs : Int) (l : List BFMessage) :
    ∀ i acc, cutoffAux lastTs i acc l =
      match lastOlderIdx lastTs l with
      | some j => i + j
      | none => acc := by
  induction l with
  | nil => intro i acc; simp [cutoffAux, lastOlderIdx]
  | cons m rest ih =>
    intro i acc
    rw [cutoffAux, ih]
    cases h : lastOlderIdx lastTs rest with
    | some j => simp [lastOlderIdx, h]; ring
    | none =>
      by_cases hm : m.timestamp < lastTs
      · simp [lastOlderIdx, h, hm]
      · simp [lastOlderIdx, h, hm]

theorem lastOlderIdx_none (lastTs : Int) (l : List BFMessage) (h : lastOlderIdx lastTs l = none) :
    ∀ j (hj : j < l.length), ¬ (l.get ⟨j, hj⟩).timestamp < lastTs := by
  induction l with
  | nil => intro j hj; simp at hj
  | cons m rest ih =>
    intro j hj
    rw [lastOlderIdx] at h
    cases hr : lastOlderIdx lastTs rest with
    | some k => rw [hr] at h; simp at h
    | none =>
      rw [hr] at h
      by_cases hm : m.timestamp < lastTs
      · simp [hm] at h
      · cases j with
        | zero => simpa using hm
        | succ j => exact ih hr j (by simpa using hj)

theorem lastOlderIdx_some (lastTs : Int) (l : List BFMessage) (k : Nat)
    (h : lastOlderIdx lastTs l = some k) :
    ∃ hk : k < l.length,
      (l.get ⟨k, hk⟩).timestamp < lastTs ∧
      ∀ j (hj : j < l.length), k < j → ¬ (l.get ⟨j, hj⟩).timestamp < lastTs := by
  induction l generalizing k with
  | nil => simp [lastOlderIdx] at h
  | cons m rest ih =>
    rw [lastOlderIdx] at h
    cases hr : lastOlderIdx lastTs rest with
    | some j =>
      rw [hr] at h
      cases h
      obtain ⟨hj, hold, hmax⟩ := ih j hr
      refine ⟨by simpa using Nat.succ_lt_succ hj, by simpa using hold, ?_⟩
      intro j2 hj2 hlt
      cases j2 with
      | zero => omega
      | succ j2 => exact hmax j2 (by simpa using hj2) (by omega)
    | none =>
      rw [hr] at h
      by_cases hm : m.timestamp < lastTs
      · simp [hm] at h
        cases h
        refine ⟨by simp, by simpa using hm, ?_⟩
        intro j hj hlt
        cases j with
        | zero => omega
        | succ j => exact lastOlderIdx_none lastTs rest hr j (by simpa using hj)
      · simp [hm] at h

end Backfill

namespace Verif

theorem bitsToNat_lt (l : List Bool) : bitsToNat l < 2 ^ l.length := by
  induction l with
  | nil => simp [bitsToNat]
  | cons b rest ih =>
    rw [bitsToNat]
    cases b <;> simp [List.length_cons, pow_succ] <;> omega

theorem takeChunk_lt (bits : List Bool) (s len : Nat) : takeChunk bits s len < 2 ^ len := by
  have h1 := bitsToNat_lt ((bits.drop s).take len)
  have h2 : ((bits.drop s).take len).length ≤ len := by
    simp [List.length_take]
  exact lt_of_lt_of_le h1 (Nat.pow_le_pow_right (by norm_num) h2)

/-- The modelled Diffie–Hellman agreement is role-symmetric. -/
theorem agree_comm (a b : Nat) : agree a (publicKey b) = agree b (publicKey a) := by
  unfold agree publicKey
  rw [← pow_mul, ← pow_mul, Nat.mul_comm]

end Verif

namespace Verif

/-- C5: for every derived byte stream, the decimal SAS encoding
consumes the stream as a sequence of 13-bit unsigned integers, maps
each into the display range 1000 to 9191 by adding 1000, and produces
exactly 3 numbers in a fixed order, as a pure function of the
stream. -/
theorem decimal_encoding_spec (bytes : List Nat) :
    (decimalSAS bytes).length = 3 ∧
    decimalSAS bytes =
      [takeChunk (bitStream bytes) 0 13 + 1000,
       takeChunk (bitStream bytes) 13 13 + 1000,
       takeChunk (bitStream bytes) 26 13 + 1000] ∧
    (decimalSAS bytes).all (fun x => decide (1000 ≤ x ∧ x ≤ 9191)) = true := by
  refine ⟨rfl, rfl, ?_⟩
  have h0 := takeChunk_lt (bitStream bytes) 0 13
  have h1 := takeChunk_lt (bitStream bytes) 13 13
  have h2 := takeChunk_lt (bitStream bytes) 26 13
  simp only [decimalSAS, List.all_cons, List.all_nil, Bool.and_true, Bool.and_eq_true,
    decide_eq_true_eq]
  norm_num at h0 h1 h2 ⊢
  omega

/-- C6: for every derived byte stream, the emoji SAS encoding consumes
6 bits at a time from the stream to index into the fixed ordered table
of 64 emoji-description pairs, and produces exactly 7 symbols. -/
theorem emoji_encoding_spec (bytes : List Nat) :
    (emojiSAS bytes).length = 7 ∧
    emojiTable.length = 64 ∧
    emojiSAS bytes = (emojiIndices bytes).map (fun n => emojiTable.getD n ("", "")) ∧
    emojiIndices bytes =
      (List.range 7).map (fun i => takeChunk (bitStream bytes) (6 * i) 6) ∧
    (emojiIndices bytes).all (fun i => decide (i < 64)) = true := by
  refine ⟨rfl, rfl, rfl, rfl, ?_⟩
  simp only [emojiIndices, List.all_eq_true, List.mem_map, List.mem_range]
  rintro x ⟨i, hi, rfl⟩
  have := takeChunk_lt (bitStream bytes) (6 * i) 6
  simpa using this

end Verif

namespace Verif

set_option maxRecDepth 16000

/-- C1: the decimal and emoji codes are pure functions of the derived
byte stream with no additional randomness, and the derivation is
role-symmetric, so the two peers of a transaction display exactly
equal codes; in every harness run of the protocol (all eight choices
of who starts SAS, who confirms first and who generated cross-signing
keys) both peers reach SasShown and their displayed decimal and emoji
codes are exactly equal. -/
theorem sas_codes_equal_both_sides :
    (∀ a b : Nat, ∀ info : SASInfo,
      decimalSAS (deriveSASBytes (agree a (publicKey b)) info) =
        decimalSAS (deriveSASBytes (agree b (publicKey a)) info) ∧
      emojiSAS (deriveSASBytes (agree a (publicKey b)) info) =
        emojiSAS (deriveSASBytes (agree b (publicKey a)) info)) ∧
    (∀ sa ca cs : Bool,
      (runSAS sa ca cs 3 4).sideA.cbs.decimalsShown ≠ none ∧
      (runSAS sa ca cs 3 4).sideB.cbs.decimalsShown ≠ none ∧
      (runSAS sa ca cs 3 4).sideA.cbs.decimalsShown =
        (runSAS sa ca cs 3 4).sideB.cbs.decimalsShown ∧
      (runSAS sa ca cs 3 4).sideA.cbs.emojisShown =
        (runSAS sa ca cs 3 4).sideB.cbs.emojisShown) := by
  constructor
  · intro a b info
    rw [agree_comm]
    exact ⟨rfl, rfl⟩
  · decide

end Verif

namespace Verif

set_option maxRecDepth 16000

/-- C2: verification reaches the terminal Done state on both sides for
all four combinations of which side calls `start_sas` first and which
side calls `confirm_sas` first (and for either placement of the
cross-signing keys), with the done callback fired on both sides and no
cancellation. -/
theorem verification_reaches_done :
    ∀ sa ca cs : Bool,
      txnStateOf (runSAS sa ca cs 3 4) true = some .done ∧
      txnStateOf (runSAS sa ca cs 3 4) false = some .done ∧
      (runSAS sa ca cs 3 4).sideA.cbs.doneFired = true ∧
      (runSAS sa ca cs 3 4).sideB.cbs.doneFired = true ∧
      (runSAS sa ca cs 3 4).sideA.cbs.cancelledWith = none ∧
      (runSAS sa ca cs 3 4).sideB.cbs.cancelledWith = none := by
  decide

/-- C8: after the second mac event has been sent (end of the pre-drain
script) neither side is Done yet — more than one dispatch cycle is
still needed, and this is not an error (nothing is cancelled) — and
the two dispatch passes per side of the drain suffice to bring both
sides to the terminal Done state. -/
theorem drain_to_done_after_macs :
    ∀ sa ca cs : Bool,
      txnStateOf (preDrainWorld sa ca cs) true = some .macSent ∧
      txnStateOf (preDrainWorld sa ca cs) false = some .macSent ∧
      (preDrainWorld sa ca cs).sideA.cbs.doneFired = false ∧
      (preDrainWorld sa ca cs).sideB.cbs.doneFired = false ∧
      (preDrainWorld sa ca cs).sideA.cbs.cancelledWith = none ∧
      (preDrainWorld sa ca cs).sideB.cbs.cancelledWith = none ∧
      txnStateOf (drainedWorld sa ca cs) true = some .done ∧
      txnStateOf (drainedWorld sa ca cs) false = some .done ∧
      (drainedWorld sa ca cs).sideA.cbs.doneFired = true ∧
      (drainedWorld sa ca cs).sideB.cbs.doneFired = true ∧
      (drainedWorld sa ca cs).sideA.cbs.cancelledWith = none ∧
      (drainedWorld sa ca cs).sideB.cbs.cancelledWith = none := by
  decide

end Verif

namespace Backfill

/-- C9: when `sendBackfill` runs with `forceForward` and the message
list has a message strictly older than the anchor at a non-zero index,
the list is truncated to start exactly at the index of the last such
older message (no strictly-older message follows that index), and that
older message itself remains in the batch that is sent. -/
theorem sendBackfill_keeps_last_older (msgs : List BFMessage) (lastTs : Int) (i : Nat)
    (hi : i < msgs.length) (hne : i ≠ 0)
    (holder : (msgs.get ⟨i, hi⟩).timestamp < lastTs) :
    ∃ hk : computeCutoff msgs lastTs < msgs.length,
      computeCutoff msgs lastTs ≠ 0 ∧
      (msgs.get ⟨computeCutoff msgs lastTs, hk⟩).timestamp < lastTs ∧
      (∀ j (hj : j < msgs.length), computeCutoff msgs lastTs < j →
        ¬ (msgs.get ⟨j, hj⟩).timestamp < lastTs) ∧
      truncateForward msgs lastTs = msgs.drop (computeCutoff msgs lastTs) ∧
      msgs.get ⟨computeCutoff msgs lastTs, hk⟩ ∈ truncateForward msgs lastTs := by
  cases hL : lastOlderIdx lastTs msgs with
  | none => exact absurd holder (lastOlderIdx_none lastTs msgs hL i hi)
  | some k =>
    have hcc : computeCutoff msgs lastTs = k := by
      have h2 := cutoffAux_eq lastTs msgs 0 0
      rw [hL] at h2
      simpa [computeCutoff] using h2
    obtain ⟨hk, holdk, hmax⟩ := lastOlderIdx_some lastTs msgs k hL
    have hik : i ≤ k := by
      by_contra hik
      exact hmax i hi (by omega) holder
    have hkne : k ≠ 0 := by omega
    have htrunc : truncateForward msgs lastTs = msgs.drop k := by
      rw [truncateForward]
      simp [hcc, hkne]
    rw [hcc]
    refine ⟨hk, hkne, holdk, ?_, ?_, ?_⟩
    · intro j hj hlt
      exact hmax j hj hlt
    · rw [htrunc]
    · rw [htrunc, List.drop_eq_getElem_cons hk, List.get_eq_getElem]
      exact List.mem_cons_self _ _

def backfillExample : List BFMessage := [⟨10, 0⟩, ⟨5, 1⟩, ⟨20, 2⟩]

theorem sendBackfill_keeps_last_older_witness :
    ∃ hk : computeCutoff backfillExample 15 < backfillExample.length,
      computeCutoff backfillExample 15 ≠ 0 ∧
      (List.get backfillExample ⟨computeCutoff backfillExample 15, hk⟩).timestamp < 15 ∧
      (∀ j (hj : j < backfillExample.length), computeCutoff backfillExample 15 < j →
        ¬ (List.get backfillExample ⟨j, hj⟩).timestamp < 15) ∧
      truncateForward backfillExample 15 =
        List.drop (computeCutoff backfillExample 15) backfillExample ∧
      List.get backfillExample ⟨computeCutoff backfillExample 15, hk⟩ ∈
        truncateForward backfillExample 15 :=
  sendBackfill_keeps_last_older backfillExample 15 1 (by decide) (by decide) (by decide)

end Backfill

namespace HiCli

/-- C10: in a room whose metadata has a non-nil `EncryptionEvent`,
`HiClient.Send` encrypts the content and rewrites the event type to
`m.room.encrypted`, recording the plaintext in the decrypted fields,
for every event type except `m.reaction`; a reaction is sent with its
original type and unencrypted content and its decrypted fields stay
empty. -/
theorem send_encrypts_except_reactions
    (room : Room) (evtType : String) (content : Content)
    (henc : room.encryptionEvent.isSome = true) :
    (evtType ≠ EventReaction →
      send room evtType content =
        { evtType := EventEncrypted, content := Content.encrypted content room.sessionId,
          decrypted := some content, decryptedType := evtType,
          megolmSessionID := room.sessionId }) ∧
    (evtType = EventReaction →
      send room evtType content =
        { evtType := evtType, content := content, decrypted := none,
          decryptedType := "", megolmSessionID := "" }) := by
  constructor
  · intro hne
    simp [send, encryptMegolm, henc, hne]
  · intro heq
    simp [send, heq]

theorem send_encrypts_witness :
    send ⟨some "enc", "sess"⟩ "m.room.message" (.plain "hi") =
      { evtType := EventEncrypted, content := Content.encrypted (.plain "hi") "sess",
        decrypted := some (.plain "hi"), decryptedType := "m.room.message",
        megolmSessionID := "sess" } :=
  (send_encrypts_except_reactions ⟨some "enc", "sess"⟩ "m.room.message" (.plain "hi") rfl).1
    (by decide)

end HiCli

namespace Verif

/-- C3: an initiator that stored the commitment and parameters of the
accept event, on receiving the responder key event, recomputes the
commitment over the received accept parameters and the revealed public
key; a mismatch cancels the transaction with `mismatchedCommitment`
(deriving nothing), and only on a match does it perform the
Diffie–Hellman agreement and derive the SAS bytes and the MAC key. -/
theorem initiator_commitment_check
    (cfg : SideConfig) (t : Txn) (theirPub priv commVal : Nat) (params : AcceptParams)
    (hstate : t.state = .keySent) (hrole : t.role = some .initiator)
    (hparams : t.receivedParams = some params)
    (hcomm : t.receivedCommitment = some commVal)
    (hpriv : t.ourPriv = some priv) :
    (commitment params theirPub ≠ commVal →
      (txnStep cfg t (.key theirPub)).1.state = .cancelled .mismatchedCommitment ∧
      (txnStep cfg t (.key theirPub)).1.sasBytes = t.sasBytes ∧
      (txnStep cfg t (.key theirPub)).1.macKey = t.macKey ∧
      Output.cancelledCb .mismatchedCommitment ∈ (txnStep cfg t (.key theirPub)).2) ∧
    (commitment params theirPub = commVal →
      (txnStep cfg t (.key theirPub)).1.state = .sasShown ∧
      (txnStep cfg t (.key theirPub)).1.sasBytes =
        some (deriveSASBytes (agree priv theirPub)
          (mkInfo cfg.deviceId t.otherDevice (publicKey priv) theirPub t.txnId)) ∧
      (txnStep cfg t (.key theirPub)).1.macKey =
        some (deriveMACKey (agree priv theirPub)
          (mkInfo cfg.deviceId t.otherDevice (publicKey priv) theirPub t.txnId))) := by
  obtain ⟨txnId, otherDevice, role, state, ourPriv, theirPubF, sentParams, rParams,
    rCommitment, sasB, macK, confirmedL, macR⟩ := t
  simp only at hstate hrole hparams hcomm hpriv
  subst hstate hrole hparams hcomm hpriv
  constructor
  · intro hne
    have hbeq : (commitment params theirPub == commVal) = false := by
      simp [hne]
    simp [txnStep, isTerminal, txnStepActive, hbeq, cancelTxn]
  · intro heq
    have hbeq : (commitment params theirPub == commVal) = true := by
      simp [heq]
    simp [txnStep, isTerminal, txnStepActive, hbeq]

end Verif

namespace Verif

/-- C4: the mac event sent on local confirmation always contains an
entry keyed by the sending side device signing key ID, and, if that
side generated cross-signing keys during the flow, also an entry keyed
by its master cross-signing key ID. -/
theorem mac_event_contains_own_keys
    (cfg : SideConfig) (t : Txn) (mk : Nat)
    (hstate : t.state = .sasShown) (hmk : t.macKey = some mk) :
    ∃ macs keysMac,
      Output.send ⟨t.txnId, .mac macs keysMac⟩ ∈ (confirmSASTxn cfg t).2 ∧
      keyIdOf cfg.deviceId ∈ macs.map Prod.fst ∧
      (cfg.crossSigning = true → keyIdOf cfg.masterKey ∈ macs.map Prod.fst) := by
  obtain ⟨txnId, otherDevice, role, state, ourPriv, theirPubF, sentParams, rParams,
    rCommitment, sasB, macK, confirmedL, macR⟩ := t
  simp only at hstate hmk
  subst hstate hmk
  refine ⟨(makeMacContent cfg mk).1, (makeMacContent cfg mk).2, ?_, ?_, ?_⟩
  · cases macR <;> simp [confirmSASTxn]
  · simp [makeMacContent, macKeyIds, List.map_map]
  · intro hcs
    simp [makeMacContent, macKeyIds, hcs, List.map_map]

theorem mac_event_contains_own_keys_witness :
    ∃ macs keysMac,
      Output.send ⟨1, .mac macs keysMac⟩ ∈
        (confirmSASTxn ⟨2, 3, true, 12⟩
          ⟨1, 1, some .initiator, .sasShown, some 3, some 25, none, none, none,
           some [0, 1, 2, 3, 4, 5], some 77, false, false⟩).2 ∧
      keyIdOf 2 ∈ macs.map Prod.fst ∧
      (true = true → keyIdOf 12 ∈ macs.map Prod.fst) :=
  mac_event_contains_own_keys ⟨2, 3, true, 12⟩
    ⟨1, 1, some .initiator, .sasShown, some 3, some 25, none, none, none,
     some [0, 1, 2, 3, 4, 5], some 77, false, false⟩ 77 rfl rfl

/-- C7: a dispatch call for an event whose transaction ID matches no
active transaction returns without error, leaves the coordinator (and
hence every existing transaction) unchanged, and produces exactly one
low-severity log entry. -/
theorem dispatch_unknown_transaction
    (c : Coordinator) (m : Message) (h : lookupTxn c m.txnId = none) :
    dispatch c m = (c, [], [⟨true, "ignoring event for unknown transaction"⟩]) ∧
    (dispatch c m).1.txns = c.txns := by
  simp [dispatch, h]

theorem dispatch_unknown_transaction_witness :
    dispatch ⟨⟨2, 3, true, 12⟩, []⟩ ⟨5, .key 7⟩ =
      (⟨⟨2, 3, true, 12⟩, []⟩, [], [⟨true, "ignoring event for unknown transaction"⟩]) :=
  (dispatch_unknown_transaction ⟨⟨2, 3, true, 12⟩, []⟩ ⟨5, .key 7⟩ rfl).1

end Verif

namespace Verif

set_option maxRecDepth 8000

def tamperParams : AcceptParams :=
  ⟨"sha256", "curve25519-hkdf-sha256", "hkdf-hmac-sha256.v2", ["decimal", "emoji"]⟩

def tamperTxn : Txn :=
  ⟨1, 1, some .initiator, .keySent, some 3, none, none, some tamperParams,
   some (commitment tamperParams (publicKey 4)), none, none, false, false⟩

theorem initiator_commitment_check_witness :
    (txnStep ⟨2, 3, true, 12⟩ tamperTxn (.key 999)).1.state =
      .cancelled .mismatchedCommitment ∧
    (txnStep ⟨2, 3, true, 12⟩ tamperTxn (.key (publicKey 4))).1.state = .sasShown :=
  ⟨((initiator_commitment_check ⟨2, 3, true, 12⟩ tamperTxn 999 3
      (commitment tamperParams (publicKey 4)) tamperParams rfl rfl rfl rfl rfl).1
      (by decide)).1,
   ((initiator_commitment_check ⟨2, 3, true, 12⟩ tamperTxn (publicKey 4) 3
      (commitment tamperParams (publicKey 4)) tamperParams rfl rfl rfl rfl rfl).2
      rfl).1⟩

end Verif
